import Mathlib

/-!
Verification of the xplainable-mcp-server repository against its
natural-language specification.

The Python sources are shallowly embedded: each Python function used by a
claim is translated into an executable Lean definition operating on strings,
lists and rationals.  File names of the embedded functions:

* `xplainable_mcp/response_handlers.py` : `safe_client_call`,
  `handle_none_as_empty_list`, `safe_model_dump_list`
* `xplainable_mcp/sync_utils.py` : `ToolGenerator.generate_tool_definition`,
  `SyncValidator.validate_tools` (coverage expression)
* `scripts/sync_workflow.py` : `generate_sync_report` (coverage and
  `sync_required`), `main` (exit code), `mcp_name` construction
* `xplainable_mcp/server.py` : `list_tools`
* `xplainable_mcp/tool_discovery.py` : `ModularToolDiscovery._extract_tool_info`,
  `get_summary`
* `xplainable_mcp/tool_manager.py` : `ToolFileManager.add_tool_to_service`,
  `_tool_content_unchanged`, `_extract_tool_from_content`,
  `_replace_tool_in_content`
-/

/-! ## Python string primitives

Models of the Python `str` operations used by the embedded code.  Python
lines here are Lean `String`s; `str.split('\n')` is `splitOnChar '\n'`;
`'\n'.join` is `String.intercalate "\n"`.
-/

/-- Model of Python whitespace (as used by `str.strip`/`str.lstrip`). -/
def pyWs (c : Char) : Bool := c.isWhitespace

/-- Model of `str.lstrip()`. -/
def pyLstrip (s : String) : String := ⟨s.data.dropWhile pyWs⟩

/-- Model of `str.rstrip()`. -/
def pyRstrip (s : String) : String := ⟨(s.data.reverse.dropWhile pyWs).reverse⟩

/-- Model of `str.strip()`. -/
def pyStrip (s : String) : String := pyRstrip (pyLstrip s)

/-- Model of Python `len(line) - len(line.lstrip())`, the indentation width. -/
def pyIndent (s : String) : Nat := s.length - (pyLstrip s).length

/-- Executable infix test on lists: `listIn n h = true` iff `n` occurs as a
contiguous sublist of `h`. -/
def listIn (n : List Char) : List Char → Bool
  | [] => n.isEmpty
  | c :: rest => n.isPrefixOf (c :: rest) || listIn n rest

/-- Model of the Python substring test `needle in hay`. -/
def pyIn (needle hay : String) : Bool := listIn needle.data hay.data

/-- Model of `line.startswith((p1, p2, ...))`: true when some listed string
is a prefix of `s`. -/
def pyStartsWithAny (ps : List String) (s : String) : Bool :=
  ps.any (fun p => p.isPrefixOf s)

/-- Split a character list at every occurrence of `sep` (the separators are
consumed; empty pieces are kept). -/
def splitOnCharList (sep : Char) : List Char → List (List Char)
  | [] => [[]]
  | c :: rest =>
      if c = sep then [] :: splitOnCharList sep rest
      else
        match splitOnCharList sep rest with
        | [] => [[c]]
        | h :: t => (c :: h) :: t

/-- Model of Python `s.split(sep)` for a one-character separator; in
particular `content.split('\n')`. -/
def splitOnChar (sep : Char) (s : String) : List String :=
  (splitOnCharList sep s.data).map (fun l => ⟨l⟩)

/-- Split a character list at every character satisfying `p`. -/
def splitPredList (p : Char → Bool) : List Char → List (List Char)
  | [] => [[]]
  | c :: rest =>
      if p c then [] :: splitPredList p rest
      else
        match splitPredList p rest with
        | [] => [[c]]
        | h :: t => (c :: h) :: t

/-- Model of Python `s.split()` (split on whitespace runs, dropping empties). -/
def pyWords (s : String) : List String :=
  ((splitPredList pyWs s.data).map (fun l => String.mk l)).filter (fun w => w ≠ "")

/-- Model of `' '.join(s.split())`, the whitespace normalization used by
`ToolFileManager._tool_content_unchanged`. -/
def pyNormWs (s : String) : String := String.intercalate " " (pyWords s)

/-! ## response_handlers.py

`safe_client_call` and `handle_none_as_empty_list` wrap a call to an
upstream callable.  A call either returns a Python value (possibly `None`,
modelled by `Option`), raises a `TypeError` with some message, or raises a
different exception.
-/

/-- A Python exception, as far as the handlers distinguish them. -/
inductive PyExc : Type
  | typeError (msg : String)
  | otherExc (tag : String)
  deriving DecidableEq, Repr

/-- Outcome of invoking the wrapped upstream callable on some arguments. -/
inductive CallOutcome (α : Type) : Type
  | ret (v : Option α)
  | raiseTE (msg : String)
  | raiseOther (tag : String)
  deriving DecidableEq, Repr

/-- The message fragment tested by the handlers:
`"'NoneType' object is not iterable" in str(e)`. -/
def noneTypeNeedle : String := "\x27NoneType\x27 object is not iterable"

/-- Embedding of `safe_client_call` (response_handlers.py lines 117-140):
return the call result; on a `TypeError` whose text contains
`noneTypeNeedle` return `None`; re-raise every other exception. -/
def safe_client_call {α : Type} (call : CallOutcome α) : Except PyExc (Option α) :=
  match call with
  | .ret v => .ok v
  | .raiseTE msg =>
      if pyIn noneTypeNeedle msg then .ok none else .error (.typeError msg)
  | .raiseOther tag => .error (.otherExc tag)

/-- Embedding of the wrapper produced by `handle_none_as_empty_list`
(response_handlers.py lines 17-51): a `None` result and the
`NoneType`-iteration `TypeError` both become `[]`; other exceptions
re-raise. -/
def handle_none_as_empty_list {α : Type} (call : CallOutcome (List α)) :
    Except PyExc (List α) :=
  match call with
  | .ret (some l) => .ok l
  | .ret none => .ok []
  | .raiseTE msg =>
      if pyIn noneTypeNeedle msg then .ok [] else .error (.typeError msg)
  | .raiseOther tag => .error (.otherExc tag)

/-- A Python object as seen by `safe_model_dump_list`: it may expose a
`model_dump` method (whose result has type `δ`), may have a `__dict__`
attribute, and `dict(obj)` either yields a value (`dictConv = some d`, as
for a mapping or an iterable of pairs) or raises `TypeError`
(`dictConv = none`, as for a plain object with `__dict__`). -/
structure PyObj (δ : Type) : Type where
  modelDump : Option δ
  hasDictAttr : Bool
  dictConv : Option δ
  deriving DecidableEq, Repr

/-- Embedding of the list comprehension
`[item.model_dump() for item in items]`: evaluates left to right, raising
`AttributeError` (modelled by `Except.error`) at the first item without a
`model_dump` method. -/
def mapModelDump {δ : Type} : List (PyObj δ) → Except Unit (List δ)
  | [] => .ok []
  | it :: rest =>
      match it.modelDump with
      | none => .error ()
      | some d =>
          match mapModelDump rest with
          | .ok ds => .ok (d :: ds)
          | .error e => .error e

/-- Embedding of the fallback comprehension
`[dict(item) if hasattr(item, \x27__dict__\x27) else item for item in items]`
(response_handlers.py line 104), evaluated left to right: an element with
`__dict__` is replaced by `dict(item)` when that conversion succeeds, an
element without `__dict__` passes through, and the first element whose
`dict(item)` raises `TypeError` aborts the comprehension with that error. -/
def mapDictFallback {δ : Type} : List (PyObj δ) → Except Unit (List (δ ⊕ PyObj δ))
  | [] => .ok []
  | it :: rest =>
      if it.hasDictAttr then
        match it.dictConv with
        | none => .error ()
        | some d =>
            match mapDictFallback rest with
            | .ok out => .ok (Sum.inl d :: out)
            | .error e => .error e
      else
        match mapDictFallback rest with
        | .ok out => .ok (Sum.inr it :: out)
        | .error e => .error e

/-- Embedding of `safe_model_dump_list` (response_handlers.py lines 84-114)
restricted to its documented domain (an actual list or `None`; the
`except TypeError` branch guards non-list iterables and cannot fire for a
list).  A returned list mixes dictionaries (`Sum.inl`) and raw items
(`Sum.inr`).  The fallback runs inside the `except AttributeError` handler,
so a `TypeError` raised there by `dict(item)` propagates out of the
function: it is modelled by `Except.error`. -/
def safe_model_dump_list {δ : Type} (items : Option (List (PyObj δ))) :
    Except Unit (List (δ ⊕ PyObj δ)) :=
  match items with
  | none => .ok []
  | some its =>
      match mapModelDump its with
      | .ok ds => .ok (ds.map Sum.inl)
      | .error _ => mapDictFallback its

/-! ## Coverage computations (sync_workflow.py and sync_utils.py)

Sets of tool names are `Finset String`; Python's float division is modelled
over `ℚ`.
-/

/-- Embedding of the coverage expression in `generate_sync_report`
(sync_workflow.py line 307):
`(len(implemented_tools) / len(mcp_set) * 100) if mcp_set else 100`
with `implemented_tools = list(mcp_set & current_set)`. -/
def generateSyncReportCoverage (mcpSet currentSet : Finset String) : ℚ :=
  if mcpSet.Nonempty then
    ((mcpSet ∩ currentSet).card : ℚ) / (mcpSet.card : ℚ) * 100
  else 100

/-- Embedding of the coverage expression in `SyncValidator.validate_tools`
(sync_utils.py lines 301-302):
`(len(existing_set & potential_set) / len(potential_set) * 100) if potential_set else 0`. -/
def validateToolsCoverage (existingSet potentialSet : Finset String) : ℚ :=
  if potentialSet.Nonempty then
    ((existingSet ∩ potentialSet).card : ℚ) / (potentialSet.card : ℚ) * 100
  else 0

/-- The fields of the report produced by `generate_sync_report`
(sync_workflow.py lines 292-327) that downstream code reads. -/
structure SyncReport : Type where
  missingTools : Finset String
  extraTools : Finset String
  implementedTools : Finset String
  coveragePercentage : ℚ
  syncRequired : Bool
  deriving DecidableEq

/-- Embedding of `generate_sync_report`: set differences of the expected
(`mcp_set`) and current tool sets, the coverage expression above, and
`sync_required = len(missing_tools) > 0`. -/
def generate_sync_report (mcpSet currentSet : Finset String) : SyncReport where
  missingTools := mcpSet \ currentSet
  extraTools := currentSet \ mcpSet
  implementedTools := mcpSet ∩ currentSet
  coveragePercentage := generateSyncReportCoverage mcpSet currentSet
  syncRequired := (mcpSet \ currentSet).card > 0

/-- Embedding of the exit in `main` (sync_workflow.py line 636):
`sys.exit(1 if report['sync_required'] else 0)`. -/
def mainExitCode (r : SyncReport) : Nat := if r.syncRequired then 1 else 0

/-! ## sync_utils.py : tool name generation

`ClientMethod` and `ToolDefinition` are the dataclasses at sync_utils.py
lines 28-48; `generate_tool_definition` is lines 174-209.  Python values
appearing as parameter defaults are modelled by `PyVal`; a method signature
is the list of parameters seen by `inspect.signature`.
-/

/-- A small universe of Python values (for parameter defaults). -/
inductive PyVal : Type
  | vnone
  | vbool (b : Bool)
  | vint (n : Int)
  | vstr (s : String)
  deriving DecidableEq, Repr

/-- A parameter annotation, as far as `_generate_parameters` inspects it:
`int`/`float`, `bool`, a generic whose origin is `list`, a generic whose
origin is `dict`, or anything else (including absent handled separately). -/
inductive PyAnn : Type
  | intAnn
  | floatAnn
  | boolAnn
  | listOrigin
  | dictOrigin
  | otherAnn (s : String)
  deriving DecidableEq, Repr

/-- One parameter of an `inspect.Signature`. -/
structure SigParam : Type where
  name : String
  annotation : Option PyAnn
  default : Option PyVal
  deriving DecidableEq, Repr

/-- `MethodCategory` (sync_utils.py lines 20-25). -/
inductive MethodCategory : Type
  | read
  | write
  | admin
  | internal
  deriving DecidableEq, Repr

/-- `ClientMethod` (sync_utils.py lines 28-37). -/
structure ClientMethod : Type where
  name : String
  module : String
  signature : List SigParam
  docstring : Option String
  category : MethodCategory
  isAsync : Bool
  isProperty : Bool
  deriving DecidableEq, Repr

/-- The JSON-ish parameter schema entry built by `_generate_parameters`. -/
structure ParamDef : Type where
  type : String
  description : String
  default : Option PyVal
  deriving DecidableEq, Repr

/-- `ToolDefinition` (sync_utils.py lines 40-47). -/
structure ToolDefinition : Type where
  name : String
  description : String
  parameters : List (String × ParamDef)
  category : MethodCategory
  clientMethod : String
  deriving DecidableEq, Repr

/-- Embedding of `ToolGenerator._generate_parameters` (sync_utils.py lines
211-255): map each non-`self`/`cls` parameter to a typed schema entry. -/
def generateParameters (sig : List SigParam) : List (String × ParamDef) :=
  (sig.filter (fun p => p.name ≠ "self" ∧ p.name ≠ "cls")).map (fun p =>
    let ptype :=
      match p.annotation with
      | none => "string"
      | some .intAnn => "number"
      | some .floatAnn => "number"
      | some .boolAnn => "boolean"
      | some .listOrigin => "array"
      | some .dictOrigin => "object"
      | some (.otherAnn _) => "string"
    (p.name, { type := ptype
               description := "Parameter " ++ p.name
               default := p.default }))

/-- Model of `str.replace(".", "_")` for the single-character pattern used in
`generate_tool_definition`: every `.` becomes `_`. -/
def replaceDotUnderscore (s : String) : String :=
  ⟨s.data.map (fun c => if c = '.' then '_' else c)⟩

/-- Model of `description.split("\n")[0]` guarded by `"\n" in description`
(sync_utils.py lines 197-198). -/
def firstLineOf (s : String) : String :=
  if pyIn "\n" s then (splitOnChar '\n' s).headD s else s

/-- Embedding of `ToolGenerator.generate_tool_definition` (sync_utils.py
lines 174-209).  Internal methods and properties are skipped (`None`); the
tool name is `f"{method.module}_{method.name}".replace(".", "_")`. -/
def generate_tool_definition (m : ClientMethod) : Option ToolDefinition :=
  if m.category = .internal then none
  else if m.isProperty then none
  else
    some { name := replaceDotUnderscore (m.module ++ "_" ++ m.name)
           description :=
             firstLineOf (m.docstring.getD ("Call " ++ m.module ++ "." ++ m.name))
           parameters := generateParameters m.signature
           category := m.category
           clientMethod := m.module ++ "." ++ m.name }

/-- Embedding of the `mcp_name` computed by `discover_mcp_decorated_methods`
(sync_workflow.py line 82): `f"{module_name}_{method_name}"`. -/
def mcpNameOf (moduleName methodName : String) : String :=
  moduleName ++ "_" ++ methodName

/-! ## server.py : list_tools

`list_tools` (server.py lines 346-406) distributes the discovered tools into
the four category buckets, skipping write tools when
`config.enable_write_tools` is false, marks every included tool enabled, and
sums the per-category counts.  A discovered tool descriptor carries a name,
a description and a category (the discovery code only ever produces the four
categories below).
-/

/-- Tool categories used by `list_tools`. -/
inductive SrvCategory : Type
  | discovery
  | read
  | write
  | admin
  deriving DecidableEq, Repr

/-- A tool descriptor as produced by `_discover_available_tools`. -/
structure SrvTool : Type where
  name : String
  description : String
  category : SrvCategory
  deriving DecidableEq, Repr

/-- An included tool: the dict after `tool["enabled"] = True`. -/
structure SrvToolOut : Type where
  tool : SrvTool
  enabled : Bool
  deriving DecidableEq, Repr

/-- The `summary` dict of `list_tools`. -/
structure SrvSummary : Type where
  discoveryTools : Nat
  readTools : Nat
  writeTools : Nat
  adminTools : Nat
  writeToolsEnabled : Bool
  deriving DecidableEq, Repr

/-- The result dict of `list_tools` (the `categories` value keeps the four
buckets; an empty bucket corresponds to a key removed by the
`{k: v for k, v in tools_dict.items() if v}` comprehension). -/
structure ListToolsResult : Type where
  totalTools : Nat
  enabledTools : Nat
  discoveryList : List SrvToolOut
  readList : List SrvToolOut
  writeList : List SrvToolOut
  adminList : List SrvToolOut
  summary : SrvSummary
  deriving DecidableEq, Repr

/-- Embedding of `list_tools` (server.py lines 346-406): write tools are
skipped entirely when `enableWriteTools` is false; every kept tool is
marked `enabled = True`; `total_tools` is the sum of the per-category
counts and `enabled_tools` equals it. -/
def list_tools (available : List SrvTool) (enableWriteTools : Bool) :
    ListToolsResult :=
  let keep := fun (t : SrvTool) =>
    !(t.category = SrvCategory.write && !enableWriteTools)
  let mark := fun (t : SrvTool) => SrvToolOut.mk t true
  let disc := ((available.filter keep).filter
      (fun t => t.category = SrvCategory.discovery)).map mark
  let rd := ((available.filter keep).filter
      (fun t => t.category = SrvCategory.read)).map mark
  let wr := ((available.filter keep).filter
      (fun t => t.category = SrvCategory.write)).map mark
  let ad := ((available.filter keep).filter
      (fun t => t.category = SrvCategory.admin)).map mark
  let summary : SrvSummary :=
    { discoveryTools := disc.length
      readTools := rd.length
      writeTools := wr.length
      adminTools := ad.length
      writeToolsEnabled := enableWriteTools }
  let total := disc.length + rd.length + wr.length + ad.length
  { totalTools := total
    enabledTools := total
    discoveryList := disc
    readList := rd
    writeList := wr
    adminList := ad
    summary := summary }

/-! ## tool_discovery.py : static source scan

`ModularToolDiscovery._extract_tool_info` (tool_discovery.py lines 113-185)
builds a `ToolInfo` from the AST node of a decorated function; the dataclass
(lines 19-27) declares `enabled: bool = True` and the constructor call never
passes `enabled`.  `get_summary` is lines 219-228.
-/

/-- An AST annotation node, as far as `_ast_to_type_string` looks at it. -/
inductive AstAnn : Type
  | nameAnn (id : String)
  | constAnn (s : String)
  | otherAnn
  deriving DecidableEq, Repr

/-- One entry of `func_node.args.args`. -/
structure AstArg : Type where
  arg : String
  annotation : Option AstAnn
  deriving DecidableEq, Repr

/-- The parts of an `ast.FunctionDef` node read by `_extract_tool_info`:
name, the leading constant-expression docstring if any, positional
arguments, and trailing default values. -/
structure FuncNode : Type where
  name : String
  docstring : Option String
  args : List AstArg
  defaults : List PyVal
  deriving DecidableEq, Repr

/-- `ToolInfo` of tool_discovery.py (lines 19-27). -/
structure DiscToolInfo : Type where
  name : String
  description : String
  category : String
  module : String
  parameters : List (String × String × Bool × Option PyVal)
  enabled : Bool
  deriving DecidableEq, Repr

/-- Embedding of `_ast_to_type_string` (tool_discovery.py lines 187-194). -/
def astToTypeString (ann : AstAnn) : String :=
  match ann with
  | .nameAnn id => id
  | .constAnn s => s
  | .otherAnn => "any"

/-- Model of Python `line.split(":", 1)[1]`, the text after the first colon
(the caller has checked a colon is present). -/
def afterFirstColon (s : String) : String :=
  match splitOnChar ':' s with
  | [] => ""
  | [_] => ""
  | _ :: rest => String.intercalate ":" rest

/-- Embedding of the docstring parse inside `_extract_tool_info`
(tool_discovery.py lines 136-149): description is the stripped first line;
category comes from the first line whose stripped form starts with
`Category:`, defaulting to `"read"`. -/
def parseDocInfo (doc : String) : String × String :=
  let ls := splitOnChar '\n' (pyStrip doc)
  let description := pyStrip (ls.headD "")
  let category :=
    match ls.find? (fun l => (pyStrip l).startsWith "Category:") with
    | some l => pyStrip (afterFirstColon l)
    | none => "read"
  (description, category)

/-- Embedding of the parameter extraction in `_extract_tool_info`
(tool_discovery.py lines 151-173): each positional argument yields
`(name, type, required, default)`; the trailing `defaults` mark the last
`len(defaults)` parameters optional (indices below zero are skipped by the
`param_index >= 0` guard). -/
def extractParamInfo (args : List AstArg) (defaults : List PyVal) :
    List (String × String × Bool × Option PyVal) :=
  let n := args.length
  let nd := defaults.length
  args.enum.map (fun (j, a) =>
    let ptype := match a.annotation with
      | some ann => astToTypeString ann
      | none => "string"
    let k : Int := (j : Int) - ((n : Int) - (nd : Int))
    match defaults.get? (k.toNat) with
    | some d =>
        if 0 ≤ k then (a.arg, ptype, false, some d) else (a.arg, ptype, true, none)
    | none => (a.arg, ptype, true, none))

/-- Embedding of `ModularToolDiscovery._extract_tool_info`
(tool_discovery.py lines 113-185).  Note the `ToolInfo(...)` construction at
lines 175-181 never passes `enabled`, so the dataclass default `True` is
used for every discovered tool, whatever its category. -/
def extract_tool_info (node : FuncNode) (serviceName : String) : DiscToolInfo :=
  let dc : String × String :=
    match node.docstring with
    | some doc => if doc ≠ "" then parseDocInfo doc
                  else ("No description available", "read")
    | none => ("No description available", "read")
  { name := node.name
    description := dc.1
    category := dc.2
    module := serviceName
    parameters := extractParamInfo node.args node.defaults
    enabled := true }

/-- The counts in the dict returned by `get_summary` (tool_discovery.py
lines 219-228); the `categories` and `services` entries are derived data not
read by any claim. -/
structure DiscSummary : Type where
  totalTools : Nat
  enabledTools : Nat
  deriving DecidableEq, Repr

/-- Embedding of `ModularToolDiscovery.get_summary`:
`total_tools = len(self.discovered_tools)` and
`enabled_tools = len([t for t in ... if t.enabled])`. -/
def get_summary (tools : List DiscToolInfo) : DiscSummary :=
  { totalTools := tools.length
    enabledTools := (tools.filter (fun t => t.enabled)).length }

/-! ## tool_manager.py : service file maintenance

All functions below operate on the file content as a string, mirroring the
Python line scanners (`content.split('\n')`, `'\n'.join`).  The sentinel
substring used throughout is `f"def {tool_name}("`.
-/

/-- The substring `f"def {tool_name}("` used to locate a tool. -/
def defNeedle (toolName : String) : String := "def " ++ toolName ++ "("

/-- The line loop of `_extract_tool_from_content` (tool_manager.py lines
300-314).  The state is `none` before the tool is found and
`some indent_level` once `in_tool` is set.  Each line is first tested for
the needle (tool_manager.py line 302): a needle line is always appended,
(re)sets `indent_level` to its own indentation, and `continue`s — even in
the middle of a capture, as for duplicated definitions.  Otherwise, while
`in_tool`, a non-blank line at indentation `≤ indent_level` that does not
start with `@`, `\"\"\"` or `\x27\x27\x27` ends the capture (`break`); any
other line is appended. -/
def extractLoop (needle : String) : List String → Option Nat → List String
  | [], _ => []
  | l :: rest, st =>
      if pyIn needle l then l :: extractLoop needle rest (some (pyIndent l))
      else
        match st with
        | none => extractLoop needle rest none
        | some ind =>
            if pyStrip l ≠ "" ∧ pyIndent l ≤ ind ∧
                pyStartsWithAny ["@", "\"\"\"", "\x27\x27\x27"] (pyLstrip l) = false
            then []
            else l :: extractLoop needle rest (some ind)

/-- Embedding of `ToolFileManager._extract_tool_from_content`
(tool_manager.py lines 284-316). -/
def extract_tool_from_content (content toolName : String) : String :=
  String.intercalate "\n"
    (extractLoop (defNeedle toolName) (splitOnChar '\n' content) none)

/-- Embedding of `ToolFileManager._tool_content_unchanged` (tool_manager.py
lines 256-282): extract the existing implementation (empty string when not
found, which is falsy, so the result is `False`) and compare
whitespace-normalized texts. -/
def tool_content_unchanged (currentContent newToolCode toolName : String) : Bool :=
  let existing := extract_tool_from_content currentContent toolName
  if existing = "" then false
  else pyNormWs existing == pyNormWs newToolCode

/-- The function-body skip loop shared by both removal branches of
`_replace_tool_in_content` (tool_manager.py lines 357-363 and 380-386):
drop lines until the first non-blank line at indentation `≤ funcIndent`
that does not start with `@`, `\"\"\"`, `\x27\x27\x27` or `#`; that line is
processed next, so it stays at the head of the returned suffix. -/
def skipBody (funcIndent : Nat) : List String → List String
  | [] => []
  | l :: rest =>
      if pyStrip l ≠ "" ∧ pyIndent l ≤ funcIndent ∧
          pyStartsWithAny ["@", "\"\"\"", "\x27\x27\x27", "#"] (pyLstrip l) = false
      then l :: rest
      else skipBody funcIndent rest

/-- Model of the consecutive-empty-line count at tool_manager.py lines
393-398 (a line is "empty" when `line.strip()` is falsy). -/
def countLeadingEmpties : List String → Nat
  | [] => 0
  | l :: rest => if pyStrip l = "" then countLeadingEmpties rest + 1 else 0

/-- Embedding of the main `while i < len(lines)` loop of
`_replace_tool_in_content` (tool_manager.py lines 337-417), as a recursion
on the remaining lines.  `tr` is `tool_replaced`, `se` is
`skip_empty_lines`.  The final `if not tool_replaced: append` (line 416-417)
is folded into the end-of-input case.  The fuel argument dominates the
number of iterations; every iteration consumes at least one line, so fuel
equal to the initial number of lines always suffices. -/
def replLoop (nc needle : String) : Nat → List String → Bool → Bool → List String
  | _, [], tr, _ => if tr then [] else [nc]
  | 0, _ :: _, tr, _ => if tr then [] else [nc]
  | fuel + 1, line :: rest, tr, se =>
      if pyStrip line = "@mcp.tool()" then
        match (rest.take 4).findIdx? (fun l => pyIn needle l) with
        | some d =>
            let rest2 := skipBody (pyIndent (rest.getD d "")) (rest.drop (d + 1))
            if tr then replLoop nc needle fuel rest2 true true
            else nc :: replLoop nc needle fuel rest2 true true
        | none => line :: replLoop nc needle fuel rest tr se
      else if pyIn needle line then
        if tr then replLoop nc needle fuel (skipBody (pyIndent line) rest) true true
        else nc :: replLoop nc needle fuel (skipBody (pyIndent line) rest) true true
      else if se && (pyStrip line == "") then
        let c := countLeadingEmpties (line :: rest)
        let se2 := ((line :: rest).drop c).isEmpty
        if 2 < c then replLoop nc needle fuel ((line :: rest).drop (c - 2)) tr se2
        else line :: replLoop nc needle fuel rest tr se2
      else
        line :: replLoop nc needle fuel rest tr (if pyStrip line ≠ "" then false else se)

/-- The line-level result of `_replace_tool_in_content`. -/
def replaceToolLines (content newToolCode toolName : String) : List String :=
  let ls := splitOnChar '\n' content
  replLoop newToolCode (defNeedle toolName) ls.length ls false false

/-- Embedding of `ToolFileManager._replace_tool_in_content` (tool_manager.py
lines 318-419). -/
def replace_tool_in_content (content newToolCode toolName : String) : String :=
  String.intercalate "\n" (replaceToolLines content newToolCode toolName)

/-- The value returned by `add_tool_to_service`. -/
inductive AddResult : Type
  | added
  | updated
  | skipped
  deriving DecidableEq, Repr

/-- Embedding of `ToolFileManager.add_tool_to_service` (tool_manager.py
lines 71-111) on an existing file: given the current file content, return
the reported action and the new file content. -/
def add_tool_to_service (content toolCode toolName : String)
    (forceUpdate : Bool) : AddResult × String :=
  if pyIn (defNeedle toolName) content then
    if !forceUpdate && tool_content_unchanged content toolCode toolName then
      (AddResult.skipped, content)
    else (AddResult.updated, replace_tool_in_content content toolCode toolName)
  else (AddResult.added, content ++ toolCode ++ "\n")

/-! ## Theorems: response handlers -/

/-- C5: for every wrapped upstream call, `safe_client_call` returns the call
result unchanged on normal return; maps a `TypeError` whose message contains
`'NoneType' object is not iterable` to the empty value `None`; and
propagates every other exception (a `TypeError` with any other message, or
any non-`TypeError` exception) unchanged. -/
theorem safe_client_call_spec {α : Type} (msg tag : String) (v : Option α) :
    (pyIn noneTypeNeedle msg = true →
      safe_client_call (CallOutcome.raiseTE (α := α) msg) = Except.ok none) ∧
    (pyIn noneTypeNeedle msg = false →
      safe_client_call (CallOutcome.raiseTE (α := α) msg) =
        Except.error (PyExc.typeError msg)) ∧
    (safe_client_call (CallOutcome.raiseOther (α := α) tag) =
      Except.error (PyExc.otherExc tag)) ∧
    (safe_client_call (CallOutcome.ret v) = Except.ok v) := by
  refine ⟨fun h => ?_, fun h => ?_, rfl, rfl⟩ <;> simp [safe_client_call, h]

/-- Witness for `safe_client_call_spec` at a concrete message. -/
theorem safe_client_call_spec_witness :
    pyIn noneTypeNeedle noneTypeNeedle = true ∧
    safe_client_call (CallOutcome.raiseTE (α := Nat) noneTypeNeedle) =
      Except.ok none ∧
    safe_client_call (CallOutcome.raiseOther (α := Nat) "ValueError") =
      Except.error (PyExc.otherExc "ValueError") := by
  have h := safe_client_call_spec (α := Nat) noneTypeNeedle "ValueError" none
  exact ⟨by decide, h.1 (by decide), h.2.2.1⟩

/-- When every item of the list exposes `model_dump`, the comprehension
succeeds and dumps each item in order. -/
theorem mapModelDump_all_some {δ : Type} (f : PyObj δ → δ) :
    ∀ (items : List (PyObj δ)), (∀ it ∈ items, it.modelDump = some (f it)) →
      mapModelDump items = Except.ok (items.map f) := by
  intro items
  induction items with
  | nil => intro _; rfl
  | cons it rest ih =>
      intro h
      have hit : it.modelDump = some (f it) := h it (by simp)
      have hrest := ih (fun x hx => h x (by simp [hx]))
      simp [mapModelDump, hit, hrest]

/-- C6: `safe_model_dump_list(None, t)` returns the empty list, and on a
non-empty list whose every element exposes `model_dump`, it returns the
elementwise dump, in order. -/
theorem safe_model_dump_list_spec {δ : Type} (items : List (PyObj δ))
    (f : PyObj δ → δ) (hne : items ≠ [])
    (h : ∀ it ∈ items, it.modelDump = some (f it)) :
    safe_model_dump_list (δ := δ) none = Except.ok [] ∧
    safe_model_dump_list (some items) =
      Except.ok (items.map (fun it => Sum.inl (f it))) := by
  refine ⟨rfl, ?_⟩
  simp [safe_model_dump_list, mapModelDump_all_some f items h]

/-- Witness for `safe_model_dump_list_spec` on a one-element list. -/
theorem safe_model_dump_list_spec_witness :
    ([PyObj.mk (some 5) false none] : List (PyObj Nat)) ≠ [] ∧
    (∀ it ∈ ([PyObj.mk (some 5) false none] : List (PyObj Nat)),
      it.modelDump = some 5) ∧
    safe_model_dump_list (δ := Nat) none = Except.ok [] ∧
    safe_model_dump_list (some [PyObj.mk (some 5) false none]) =
      Except.ok [Sum.inl 5] := by
  have h := safe_model_dump_list_spec ([PyObj.mk (some 5) false none])
      (fun _ => 5) (by decide) (by intro it hit; simp at hit; simp [hit])
  exact ⟨by decide, by intro it hit; simp at hit; simp [hit], h.1, h.2⟩

/-- When every element with `__dict__` is dict-convertible, the fallback
comprehension returns, converting exactly those elements. -/
theorem mapDictFallback_all_ok {δ : Type} (g : PyObj δ → δ) :
    ∀ (items : List (PyObj δ)),
      (∀ it ∈ items, it.hasDictAttr = true → it.dictConv = some (g it)) →
      mapDictFallback items = Except.ok (items.map (fun it =>
        if it.hasDictAttr then Sum.inl (g it) else Sum.inr it)) := by
  intro items
  induction items with
  | nil => intro _; rfl
  | cons it rest ih =>
      intro h
      have hrest := ih (fun x hx => h x (List.mem_cons_of_mem it hx))
      by_cases hd : it.hasDictAttr = true
      · have hconv : it.dictConv = some (g it) := h it (List.mem_cons_self it rest) hd
        simp [mapDictFallback, hd, hconv, hrest]
      · have hd' : it.hasDictAttr = false := by
          cases hb : it.hasDictAttr
          · rfl
          · exact absurd hb hd
        simp [mapDictFallback, hd', hrest]

/-- If some element has `__dict__` but is not dict-convertible, the fallback
comprehension raises the `TypeError` from `dict(item)`. -/
theorem mapDictFallback_raises {δ : Type} :
    ∀ (items : List (PyObj δ)),
      (∃ it ∈ items, it.hasDictAttr = true ∧ it.dictConv = none) →
      mapDictFallback items = Except.error () := by
  intro items
  induction items with
  | nil => intro hex; simp at hex
  | cons it rest ih =>
      intro hex
      rcases hex with ⟨x, hxmem, hxd, hxc⟩
      rcases List.mem_cons.mp hxmem with rfl | hmem
      · simp [mapDictFallback, hxd, hxc]
      · by_cases hd : it.hasDictAttr = true
        · cases hconv : it.dictConv with
          | none => simp [mapDictFallback, hd, hconv]
          | some d => simp [mapDictFallback, hd, hconv, ih ⟨x, hmem, hxd, hxc⟩]
        · have hd' : it.hasDictAttr = false := by
            cases hb : it.hasDictAttr
            · rfl
            · exact absurd hb hd
          simp [mapDictFallback, hd', ih ⟨x, hmem, hxd, hxc⟩]

/-- C10 counterexample: a one-element list whose element lacks `model_dump`
but has `__dict__` and is not dict-convertible (the typical plain object):
`safe_model_dump_list` raises the `TypeError` from `dict(item)` instead of
returning a list, so it does not return a list of the same length. -/
theorem safe_model_dump_list_dict_raises :
    (PyObj.mk (δ := Nat) none true none).modelDump = none ∧
    (PyObj.mk (δ := Nat) none true none).hasDictAttr = true ∧
    safe_model_dump_list (some [PyObj.mk (δ := Nat) none true none]) =
      Except.error () := ⟨rfl, rfl, rfl⟩

/-- C10 (amended): when no element of a (non-`None`) list exposes
`model_dump`, the `AttributeError` is caught and the fallback comprehension
runs; if every element that has `__dict__` is dict-convertible, the
function returns the list of the same length in which each element is
replaced by `dict(element)` when it has `__dict__` and kept otherwise;
but if some element has `__dict__` and `dict(element)` raises `TypeError`
(as for a plain object), that `TypeError` propagates and the function
raises instead of returning. -/
theorem safe_model_dump_list_fallback {δ : Type}
    (items bad : List (PyObj δ)) (g : PyObj δ → δ)
    (hnd : ∀ it ∈ items, it.modelDump = none)
    (hconv : ∀ it ∈ items, it.hasDictAttr = true → it.dictConv = some (g it))
    (hbnd : ∀ it ∈ bad, it.modelDump = none)
    (hbad : ∃ it ∈ bad, it.hasDictAttr = true ∧ it.dictConv = none) :
    safe_model_dump_list (some items) =
      Except.ok (items.map (fun it =>
        if it.hasDictAttr then Sum.inl (g it) else Sum.inr it)) ∧
    (items.map (fun it =>
        if it.hasDictAttr then Sum.inl (g it) else Sum.inr it)).length =
      items.length ∧
    safe_model_dump_list (some bad) = Except.error () := by
  refine ⟨?_, by simp, ?_⟩
  · cases items with
    | nil => rfl
    | cons it rest =>
        have hit : it.modelDump = none := hnd it (List.mem_cons_self it rest)
        have := mapDictFallback_all_ok g (it :: rest) hconv
        simp only [safe_model_dump_list, mapModelDump, hit]
        exact this
  · rcases hbad with ⟨x, hxmem, hxprop⟩
    have hbnil : bad ≠ [] := by
      intro hb; rw [hb] at hxmem; simp at hxmem
    cases bad with
    | nil => exact absurd rfl hbnil
    | cons it rest =>
        have hit : it.modelDump = none := hbnd it (List.mem_cons_self it rest)
        have := mapDictFallback_raises (it :: rest) ⟨x, hxmem, hxprop⟩
        simp only [safe_model_dump_list, mapModelDump, hit]
        exact this

/-- Witness for `safe_model_dump_list_fallback`: a convertible list with one
`__dict__`-bearing mapping-like item and one plain pass-through item, and a
raising list with one non-convertible `__dict__`-bearing item. -/
theorem safe_model_dump_list_fallback_witness :
    (∀ it ∈ ([PyObj.mk none true (some 7), PyObj.mk none false none] :
        List (PyObj Nat)), it.modelDump = none) ∧
    (∃ it ∈ ([PyObj.mk (δ := Nat) none true none] : List (PyObj Nat)),
      it.hasDictAttr = true ∧ it.dictConv = none) ∧
    safe_model_dump_list
        (some [PyObj.mk (δ := Nat) none true (some 7), PyObj.mk none false none]) =
      Except.ok [Sum.inl 7, Sum.inr (PyObj.mk none false none)] ∧
    safe_model_dump_list (some [PyObj.mk (δ := Nat) none true none]) =
      Except.error () := by
  have h := safe_model_dump_list_fallback
      ([PyObj.mk (δ := Nat) none true (some 7), PyObj.mk none false none])
      ([PyObj.mk (δ := Nat) none true none]) (fun _ => 7)
      (by intro it hit; simp at hit; rcases hit with h1 | h1 <;> simp [h1])
      (by intro it hit; simp at hit; rcases hit with h1 | h1 <;> simp [h1])
      (by intro it hit; simp at hit; simp [hit])
      (by exact ⟨PyObj.mk none true none, by simp, rfl, rfl⟩)
  refine ⟨by intro it hit; simp at hit; rcases hit with h1 | h1 <;> simp [h1],
    ⟨PyObj.mk none true none, by simp, rfl, rfl⟩, ?_, h.2.2⟩
  rw [h.1]; rfl

/-! ## Theorems: coverage and exit code -/

/-- C3 counterexample: with an empty expected (potential) tool set,
`SyncValidator.validate_tools` computes coverage 0, not 100 as the claim
states for both coverage computations. -/
theorem validateToolsCoverage_empty_not_100 :
    validateToolsCoverage ∅ ∅ = 0 ∧ validateToolsCoverage ∅ ∅ ≠ 100 := by
  constructor <;> simp [validateToolsCoverage]

/-- C3 (amended): both coverage computations equal
`|implemented| / |expected| * 100` on a non-empty expected set and always
lie in `[0, 100]`; on an empty expected set `generate_sync_report` defines
coverage as 100 while `SyncValidator.validate_tools` defines it as 0. -/
theorem coverage_bounds (mcpSet currentSet existingSet potentialSet : Finset String) :
    0 ≤ generateSyncReportCoverage mcpSet currentSet ∧
    generateSyncReportCoverage mcpSet currentSet ≤ 100 ∧
    0 ≤ validateToolsCoverage existingSet potentialSet ∧
    validateToolsCoverage existingSet potentialSet ≤ 100 ∧
    generateSyncReportCoverage ∅ currentSet = 100 ∧
    validateToolsCoverage existingSet ∅ = 0 := by
  have bound : ∀ (a b : Finset String), a.Nonempty →
      ((a ∩ b).card : ℚ) / (a.card : ℚ) * 100 ≤ 100 := by
    intro a b ha
    have hpos : (0 : ℚ) < (a.card : ℚ) := by
      exact_mod_cast Finset.card_pos.mpr ha
    have hle : ((a ∩ b).card : ℚ) ≤ (a.card : ℚ) := by
      exact_mod_cast Finset.card_le_card (Finset.inter_subset_left)
    have h1 : ((a ∩ b).card : ℚ) / (a.card : ℚ) ≤ 1 :=
      (div_le_one hpos).mpr hle
    nlinarith
  have nonneg : ∀ (a b : Finset String),
      (0 : ℚ) ≤ ((a ∩ b).card : ℚ) / (a.card : ℚ) * 100 := by
    intro a b; positivity
  refine ⟨?_, ?_, ?_, ?_, ?_, ?_⟩
  · unfold generateSyncReportCoverage
    split
    · exact nonneg mcpSet currentSet
    · norm_num
  · unfold generateSyncReportCoverage
    split
    · exact bound mcpSet currentSet (by assumption)
    · norm_num
  · unfold validateToolsCoverage
    split
    · have := nonneg potentialSet existingSet
      simpa [Finset.inter_comm] using this
    · norm_num
  · unfold validateToolsCoverage
    split
    · have := bound potentialSet existingSet (by assumption)
      simpa [Finset.inter_comm] using this
    · norm_num
  · simp [generateSyncReportCoverage]
  · simp [validateToolsCoverage]

/-- C8: the sync workflow exits 1 exactly when the report's `sync_required`
flag is set, exits 0 exactly when it is clear, and the flag is set exactly
when some expected tool is missing (the expected set is not contained in
the current set). -/
theorem sync_exit_code_spec (mcpSet currentSet : Finset String) :
    (mainExitCode (generate_sync_report mcpSet currentSet) = 1 ↔
      (generate_sync_report mcpSet currentSet).syncRequired = true) ∧
    (mainExitCode (generate_sync_report mcpSet currentSet) = 0 ↔
      (generate_sync_report mcpSet currentSet).syncRequired = false) ∧
    ((generate_sync_report mcpSet currentSet).syncRequired = true ↔
      ¬ mcpSet ⊆ currentSet) := by
  have hflag : (generate_sync_report mcpSet currentSet).syncRequired = true ↔
      ¬ mcpSet ⊆ currentSet := by
    simp [generate_sync_report, Finset.card_pos, Finset.sdiff_nonempty]
  by_cases h : mcpSet ⊆ currentSet
  · have hf : (generate_sync_report mcpSet currentSet).syncRequired = false := by
      rcases Bool.eq_false_or_eq_true
          (generate_sync_report mcpSet currentSet).syncRequired with hb | hb
      · exact absurd (hflag.mp hb) (by simpa using h)
      · exact hb
    simp [mainExitCode, hf, hflag, h]
  · have ht : (generate_sync_report mcpSet currentSet).syncRequired = true :=
      hflag.mpr h
    simp [mainExitCode, ht, hflag, h]

/-! ## Theorems: tool naming, list_tools, static scan -/

/-- Replacing dots is the identity on a dot-free string. -/
theorem map_fixes_dotfree : ∀ (l : List Char), (∀ c ∈ l, c ≠ '.') →
    l.map (fun c => if c = '.' then '_' else c) = l := by
  intro l
  induction l with
  | nil => intro _; rfl
  | cons c rest ih =>
      intro h
      have hc : c ≠ '.' := h c (List.mem_cons_self c rest)
      have ht := ih (fun x hx => h x (List.mem_cons_of_mem c hx))
      simp [hc, ht]

theorem replaceDotUnderscore_eq_self (s : String)
    (h : s.data.all (fun c => c ≠ '.') = true) : replaceDotUnderscore s = s := by
  unfold replaceDotUnderscore
  have hall : ∀ c ∈ s.data, c ≠ '.' := by
    intro c hc
    have := List.all_eq_true.mp h c hc
    simpa using this
  rw [map_fixes_dotfree s.data hall]

/-- C4: for a discovered upstream method that is neither internal nor a
property (and whose module/method names contain no dot, as Python
identifiers cannot), both naming sites produce exactly
`{module}_{method}`: `generate_tool_definition` emits a tool whose name is
that concatenation, and `discover_mcp_decorated_methods` computes the same
`mcp_name`; the name depends only on `(module, method)`. -/
theorem tool_name_spec (m : ClientMethod)
    (hcat : m.category ≠ MethodCategory.internal) (hprop : m.isProperty = false)
    (hdots : (m.module ++ "_" ++ m.name).data.all (fun c => c ≠ '.') = true) :
    ∃ td, generate_tool_definition m = some td ∧
      td.name = m.module ++ "_" ++ m.name ∧
      mcpNameOf m.module m.name = m.module ++ "_" ++ m.name ∧
      (∀ m' : ClientMethod, m'.module = m.module → m'.name = m.name →
        mcpNameOf m'.module m'.name = mcpNameOf m.module m.name) := by
  unfold generate_tool_definition
  rw [if_neg hcat, if_neg (by simp [hprop])]
  refine ⟨_, rfl, ?_, rfl, ?_⟩
  · exact replaceDotUnderscore_eq_self _ hdots
  · intro m' h1 h2; simp [mcpNameOf, h1, h2]

/-- Witness for `tool_name_spec` at a concrete read method. -/
theorem tool_name_spec_witness :
    (ClientMethod.mk "list_team_models" "models" [] none MethodCategory.read
        false false).category ≠ MethodCategory.internal ∧
    ∃ td, generate_tool_definition
        (ClientMethod.mk "list_team_models" "models" [] none MethodCategory.read
          false false) = some td ∧
      td.name = "models_list_team_models" := by
  have h := tool_name_spec
      (ClientMethod.mk "list_team_models" "models" [] none MethodCategory.read
        false false) (by decide) rfl (by decide)
  rcases h with ⟨td, h1, h2, _, _⟩
  exact ⟨by decide, td, h1, h2⟩

/-- Per-category counts add up to the count of non-write tools. -/
theorem srv_count_partition (l : List SrvTool) :
    ((l.filter (fun t => t.category = SrvCategory.discovery)).length
      + (l.filter (fun t => t.category = SrvCategory.read)).length)
      + (l.filter (fun t => t.category = SrvCategory.admin)).length
    = (l.filter (fun t => ¬ t.category = SrvCategory.write)).length := by
  induction l with
  | nil => rfl
  | cons t rest ih =>
      cases h : t.category <;>
        simp only [List.filter_cons, h] <;> simp [decide_not] at ih ⊢ <;> omega

/-- C7: with the write-enable flag false, `list_tools` reports zero write
tools in its summary, its write bucket is empty (so write tools are not
merely marked disabled), `total_tools` counts exactly the non-write tools,
and `enabled_tools` equals `total_tools`. -/
theorem list_tools_write_disabled (available : List SrvTool) :
    (list_tools available false).summary.writeTools = 0 ∧
    (list_tools available false).writeList = [] ∧
    (list_tools available false).totalTools =
      (available.filter (fun t => ¬ t.category = SrvCategory.write)).length ∧
    (list_tools available false).enabledTools =
      (list_tools available false).totalTools := by
  have hwr : (available.filter
        (fun t => !(decide (t.category = SrvCategory.write) && !false))).filter
        (fun t => decide (t.category = SrvCategory.write)) = [] := by
    rw [List.filter_filter]
    have h0 : ∀ t ∈ available,
        (decide (t.category = SrvCategory.write) &&
          !(decide (t.category = SrvCategory.write) && !false)) = false := by
      intro t _; cases h : t.category <;> simp [h]
    rw [List.filter_congr h0]
    simp
  have hcat : ∀ (c : SrvCategory), c ≠ SrvCategory.write →
      (available.filter
          (fun t => !(decide (t.category = SrvCategory.write) && !false))).filter
          (fun t => decide (t.category = c)) =
        available.filter (fun t => decide (t.category = c)) := by
    intro c hc
    rw [List.filter_filter]
    refine List.filter_congr ?_
    intro t _
    cases h : t.category <;> cases hcc : c <;> simp_all
  refine ⟨?_, ?_, ?_, rfl⟩
  · simp only [list_tools, hwr]; rfl
  · simp only [list_tools, hwr]; rfl
  · simp only [list_tools, hwr, hcat SrvCategory.discovery (by simp),
      hcat SrvCategory.read (by simp), hcat SrvCategory.admin (by simp)]
    simp only [List.length_map, List.length_nil]
    have := srv_count_partition available
    omega

/-- C9: every tool produced by the static source scan is enabled, whatever
category its docstring declares (including `write`), and consequently
`get_summary` reports `enabled_tools` equal to `total_tools`. -/
theorem static_scan_all_enabled (nodes : List (FuncNode × String)) :
    (∀ p ∈ nodes, (extract_tool_info p.1 p.2).enabled = true) ∧
    (get_summary (nodes.map (fun p => extract_tool_info p.1 p.2))).enabledTools =
      (get_summary (nodes.map (fun p => extract_tool_info p.1 p.2))).totalTools := by
  refine ⟨fun p _ => rfl, ?_⟩
  unfold get_summary
  have : (nodes.map (fun p => extract_tool_info p.1 p.2)).filter
      (fun t => t.enabled) = nodes.map (fun p => extract_tool_info p.1 p.2) := by
    rw [List.filter_eq_self]
    intro t ht
    rcases List.mem_map.mp ht with ⟨p, _, hp⟩
    rw [← hp]; rfl
  simp [this]

/-! ## Theorems: add_tool_to_service second-run behaviour -/

/-- A minimal service file content before the first sync run. -/
def c1content : String := "# Models Tools\n"

/-- Generated tool code in the shape produced by
`generate_tool_implementation` (sync_workflow.py lines 252-275): a leading
blank line, the `@mcp.tool()` decorator, the `def` line, docstring with a
`Category:` marker, and a `try`/`except` body. -/
def c1code : String := "\n@mcp.tool()\ndef models_list():\n    \"\"\"\n    List models.\n\n    Category: read\n    \"\"\"\n    try:\n        client = get_client()\n        result = client.models.list()\n        return result\n    except Exception as e:\n        raise\n"

/-- C1: the first `add_tool_to_service` run adds the tool, but the second
run with identical inputs and `force_update=False` reports `updated`, not
`skipped`: `_extract_tool_from_content` starts capturing at the `def` line
and never includes the `@mcp.tool()` decorator, while the generated code it
is compared against always starts with that decorator, so the
whitespace-normalized comparison in `_tool_content_unchanged` can never
succeed on decorator-bearing generated code. -/
theorem add_tool_second_run_not_skipped :
    (add_tool_to_service c1content c1code "models_list" false).1 =
      AddResult.added ∧
    (add_tool_to_service (add_tool_to_service c1content c1code "models_list" false).2
      c1code "models_list" false).1 = AddResult.updated ∧
    (add_tool_to_service (add_tool_to_service c1content c1code "models_list" false).2
      c1code "models_list" false).1 ≠ AddResult.skipped := by
  refine ⟨?_, ?_, ?_⟩ <;> decide

/-! ## Theorems: forced-update merge (_replace_tool_in_content)

Supporting facts: a stripped line decomposes its raw text into whitespace
margins around the stripped core; a needle that contains a character which
is neither whitespace nor part of `@mcp.tool()` cannot occur in a
whitespace-only line nor in a bare decorator line; `skipBody` never grows
its input; and the main loop, once it has replaced the tool (`tr = true`),
emits only lines free of the needle.
-/

theorem pyStrip_decomp (l : String) :
    ∃ t₁ t₂, l.data = t₁ ++ (pyStrip l).data ++ t₂ ∧
      (∀ c ∈ t₁, pyWs c = true) ∧ (∀ c ∈ t₂, pyWs c = true) := by
  have h1 : l.data = l.data.takeWhile pyWs ++ (pyLstrip l).data := by
    simp [pyLstrip]
  have h2 : (pyLstrip l).data =
      (pyStrip l).data ++ ((pyLstrip l).data.reverse.takeWhile pyWs).reverse := by
    have hsplit : (pyLstrip l).data.reverse =
        (pyLstrip l).data.reverse.takeWhile pyWs ++
          (pyLstrip l).data.reverse.dropWhile pyWs := by
      simp
    calc (pyLstrip l).data = (pyLstrip l).data.reverse.reverse := by simp
      _ = ((pyLstrip l).data.reverse.takeWhile pyWs ++
            (pyLstrip l).data.reverse.dropWhile pyWs).reverse := by rw [← hsplit]
      _ = ((pyLstrip l).data.reverse.dropWhile pyWs).reverse ++
            ((pyLstrip l).data.reverse.takeWhile pyWs).reverse := by
              rw [List.reverse_append]
      _ = (pyStrip l).data ++ ((pyLstrip l).data.reverse.takeWhile pyWs).reverse := by
            simp [pyStrip, pyRstrip]
  refine ⟨l.data.takeWhile pyWs,
    ((pyLstrip l).data.reverse.takeWhile pyWs).reverse, ?_, ?_, ?_⟩
  · calc l.data = l.data.takeWhile pyWs ++ (pyLstrip l).data := h1
      _ = l.data.takeWhile pyWs ++ ((pyStrip l).data ++
            ((pyLstrip l).data.reverse.takeWhile pyWs).reverse) := by rw [← h2]
      _ = l.data.takeWhile pyWs ++ (pyStrip l).data ++
            ((pyLstrip l).data.reverse.takeWhile pyWs).reverse := by
            rw [List.append_assoc]
  · intro c hc
    exact List.mem_takeWhile_imp hc
  · intro c hc
    rw [List.mem_reverse] at hc
    exact List.mem_takeWhile_imp hc

theorem mem_pyStrip_of_not_ws {l : String} {c : Char} (hc : c ∈ l.data)
    (hw : pyWs c = false) : c ∈ (pyStrip l).data := by
  rcases pyStrip_decomp l with ⟨t₁, t₂, hdec, h₁, h₂⟩
  rw [hdec] at hc
  rcases List.mem_append.mp hc with hc' | hc'
  · rcases List.mem_append.mp hc' with hc'' | hc''
    · exact absurd (h₁ c hc'') (by simp [hw])
    · exact hc''
  · exact absurd (h₂ c hc') (by simp [hw])

theorem listIn_sound : ∀ (n h : List Char), listIn n h = true → n <:+: h := by
  intro n h
  induction h with
  | nil =>
      intro hn
      have : n = [] := by simpa [listIn, List.isEmpty_iff] using hn
      simp [this]
  | cons c rest ih =>
      intro hn
      have hn' : n <+: c :: rest ∨ listIn n rest = true := by
        simpa [listIn] using hn
      rcases hn' with hp | hr
      · rcases hp with ⟨t, ht⟩
        exact ⟨[], t, by simpa using ht⟩
      · rcases ih hr with ⟨s, t, hst⟩
        exact ⟨c :: s, t, by simp [← hst]⟩

theorem pyIn_mem {needle hay : String} (h : pyIn needle hay = true) {c : Char}
    (hc : c ∈ needle.data) : c ∈ hay.data :=
  (listIn_sound needle.data hay.data h).sublist.subset hc

/-- The needle contains a character that is neither whitespace nor a
character of the decorator text `@mcp.tool()`. -/
def needleHasMarker (needle : String) : Prop :=
  ∃ c ∈ needle.data, pyWs c = false ∧ c ∉ ("@mcp.tool()" : String).data

theorem not_pyIn_of_strip_empty {needle l : String}
    (hok : needleHasMarker needle) (hl : pyStrip l = "") :
    pyIn needle l = false := by
  rcases hok with ⟨c, hc, hw, _⟩
  by_contra hin
  have hin' : pyIn needle l = true := by
    cases hb : pyIn needle l
    · exact absurd hb hin
    · rfl
  have := mem_pyStrip_of_not_ws (pyIn_mem hin' hc) hw
  rw [hl] at this
  simp at this

theorem not_pyIn_of_strip_decorator {needle l : String}
    (hok : needleHasMarker needle) (hl : pyStrip l = "@mcp.tool()") :
    pyIn needle l = false := by
  rcases hok with ⟨c, hc, hw, hcd⟩
  by_contra hin
  have hin' : pyIn needle l = true := by
    cases hb : pyIn needle l
    · exact absurd hb hin
    · rfl
  have := mem_pyStrip_of_not_ws (pyIn_mem hin' hc) hw
  rw [hl] at this
  exact hcd this

theorem skipBody_length (ind : Nat) : ∀ l : List String,
    (skipBody ind l).length ≤ l.length := by
  intro l
  induction l with
  | nil => simp [skipBody]
  | cons x rest ih =>
      rw [skipBody]
      split
      · simp
      · exact le_trans ih (by simp)

theorem defNeedle_marker (toolName : String) : needleHasMarker (defNeedle toolName) := by
  refine ⟨'d', ?_, by decide, by decide⟩
  show 'd' ∈ (defNeedle toolName).data
  have hdata : (defNeedle toolName).data = "def ".data ++ (toolName.data ++ "(".data) := by
    simp [defNeedle]
  rw [hdata]
  exact List.mem_append.mpr (Or.inl (by decide))

theorem replLoop_nil (nc needle : String) (fuel : Nat) (tr se : Bool) :
    replLoop nc needle fuel [] tr se = if tr then [] else [nc] := by
  cases fuel <;> rw [replLoop]

theorem replLoop_step_dec_found (nc needle line : String) (f : Nat)
    (rest : List String) (tr se : Bool) (d : Nat)
    (h1 : pyStrip line = "@mcp.tool()")
    (hfi : (rest.take 4).findIdx? (fun l => pyIn needle l) = some d) :
    replLoop nc needle (f + 1) (line :: rest) tr se =
      (if tr then
        replLoop nc needle f
          (skipBody (pyIndent (rest.getD d "")) (rest.drop (d + 1))) true true
      else
        nc :: replLoop nc needle f
          (skipBody (pyIndent (rest.getD d "")) (rest.drop (d + 1))) true true) := by
  rw [replLoop, if_pos h1, hfi]

theorem replLoop_step_dec_none (nc needle line : String) (f : Nat)
    (rest : List String) (tr se : Bool)
    (h1 : pyStrip line = "@mcp.tool()")
    (hfi : (rest.take 4).findIdx? (fun l => pyIn needle l) = none) :
    replLoop nc needle (f + 1) (line :: rest) tr se =
      line :: replLoop nc needle f rest tr se := by
  rw [replLoop, if_pos h1, hfi]

theorem replLoop_step_needle (nc needle line : String) (f : Nat)
    (rest : List String) (tr se : Bool)
    (h1 : ¬ pyStrip line = "@mcp.tool()") (h2 : pyIn needle line = true) :
    replLoop nc needle (f + 1) (line :: rest) tr se =
      (if tr then replLoop nc needle f (skipBody (pyIndent line) rest) true true
       else nc :: replLoop nc needle f (skipBody (pyIndent line) rest) true true) := by
  rw [replLoop, if_neg h1, if_pos h2]

theorem replLoop_step_empty (nc needle line : String) (f : Nat)
    (rest : List String) (tr se : Bool)
    (h1 : ¬ pyStrip line = "@mcp.tool()") (h2 : pyIn needle line = false)
    (h3 : (se && (pyStrip line == "")) = true) :
    replLoop nc needle (f + 1) (line :: rest) tr se =
      (if 2 < countLeadingEmpties (line :: rest) then
        replLoop nc needle f
          ((line :: rest).drop (countLeadingEmpties (line :: rest) - 2)) tr
          (((line :: rest).drop (countLeadingEmpties (line :: rest))).isEmpty)
      else
        line :: replLoop nc needle f rest tr
          (((line :: rest).drop (countLeadingEmpties (line :: rest))).isEmpty)) := by
  rw [replLoop, if_neg h1, if_neg (by simp [h2]), if_pos h3]

theorem replLoop_step_other (nc needle line : String) (f : Nat)
    (rest : List String) (tr se : Bool)
    (h1 : ¬ pyStrip line = "@mcp.tool()") (h2 : pyIn needle line = false)
    (h3 : (se && (pyStrip line == "")) = false) :
    replLoop nc needle (f + 1) (line :: rest) tr se =
      line :: replLoop nc needle f rest tr
        (if pyStrip line ≠ "" then false else se) := by
  rw [replLoop, if_neg h1, if_neg (by simp [h2]), if_neg (by simp [h3])]

theorem replLoop_true_clean (nc needle : String) (hok : needleHasMarker needle) :
    ∀ fuel lines se, lines.length ≤ fuel →
      ∀ l ∈ replLoop nc needle fuel lines true se, pyIn needle l = false := by
  intro fuel
  induction fuel with
  | zero =>
      intro lines se hlen l hl
      have hnil : lines = [] := List.eq_nil_of_length_eq_zero (Nat.le_zero.mp hlen)
      subst hnil
      rw [replLoop_nil] at hl
      simp at hl
  | succ f ih =>
      intro lines se hlen l hl
      cases lines with
      | nil =>
          rw [replLoop_nil] at hl; simp at hl
      | cons line rest =>
          have hrest : rest.length ≤ f := by
            simp at hlen; omega
          by_cases h1 : pyStrip line = "@mcp.tool()"
          · cases hfi : (rest.take 4).findIdx? (fun x => pyIn needle x) with
            | some d =>
                rw [replLoop_step_dec_found nc needle line f rest true se d h1 hfi,
                  if_pos rfl] at hl
                refine ih _ true ?_ l hl
                calc (skipBody (pyIndent (rest.getD d "")) (rest.drop (d + 1))).length
                    ≤ (rest.drop (d + 1)).length := skipBody_length _ _
                  _ ≤ f := by rw [List.length_drop]; omega
            | none =>
                rw [replLoop_step_dec_none nc needle line f rest true se h1 hfi] at hl
                rcases List.mem_cons.mp hl with hcase | hcase
                · subst hcase; exact not_pyIn_of_strip_decorator hok h1
                · exact ih _ se hrest l hcase
          · by_cases h2 : pyIn needle line = true
            · rw [replLoop_step_needle nc needle line f rest true se h1 h2,
                if_pos rfl] at hl
              exact ih _ true (le_trans (skipBody_length _ _) hrest) l hl
            · have h2' : pyIn needle line = false := by
                cases hb : pyIn needle line
                · rfl
                · exact absurd hb h2
              by_cases h3 : (se && (pyStrip line == "")) = true
              · rw [replLoop_step_empty nc needle line f rest true se h1 h2' h3] at hl
                by_cases h4 : 2 < countLeadingEmpties (line :: rest)
                · rw [if_pos h4] at hl
                  refine ih _ _ ?_ l hl
                  rw [List.length_drop]
                  simp only [List.length_cons]
                  omega
                · rw [if_neg h4] at hl
                  rcases List.mem_cons.mp hl with hcase | hcase
                  · subst hcase
                    simp only [Bool.and_eq_true, beq_iff_eq] at h3
                    exact not_pyIn_of_strip_empty hok h3.2
                  · exact ih _ _ hrest l hcase
              · have h3' : (se && (pyStrip line == "")) = false := by
                  cases hb : (se && (pyStrip line == ""))
                  · rfl
                  · exact absurd hb h3
                rw [replLoop_step_other nc needle line f rest true se h1 h2' h3'] at hl
                rcases List.mem_cons.mp hl with hcase | hcase
                · subst hcase; exact h2'
                · exact ih _ _ hrest l hcase

theorem replLoop_prefix_spec (nc needle : String) (hok : needleHasMarker needle) :
    ∀ fuel lines, lines.length ≤ fuel →
      (∃ l ∈ lines, pyIn needle l = true) →
      ∃ t B, replLoop nc needle fuel lines false false =
          lines.take t ++ nc :: B ∧
        (∀ l ∈ lines.take t, pyIn needle l = false) ∧
        (∀ l ∈ B, pyIn needle l = false) := by
  intro fuel
  induction fuel with
  | zero =>
      intro lines hlen hex
      have hnil : lines = [] := List.eq_nil_of_length_eq_zero (Nat.le_zero.mp hlen)
      subst hnil
      simp at hex
  | succ f ih =>
      intro lines hlen hex
      cases lines with
      | nil => simp at hex
      | cons line rest =>
          have hrest : rest.length ≤ f := by simp at hlen; omega
          by_cases h1 : pyStrip line = "@mcp.tool()"
          · cases hfi : (rest.take 4).findIdx? (fun x => pyIn needle x) with
            | some d =>
                rw [replLoop_step_dec_found nc needle line f rest false false d h1 hfi,
                  if_neg (by simp)]
                refine ⟨0, _, rfl, by simp, ?_⟩
                intro l hl
                refine replLoop_true_clean nc needle hok f _ true ?_ l hl
                calc (skipBody (pyIndent (rest.getD d "")) (rest.drop (d + 1))).length
                    ≤ (rest.drop (d + 1)).length := skipBody_length _ _
                  _ ≤ f := by rw [List.length_drop]; omega
            | none =>
                have hline : pyIn needle line = false :=
                  not_pyIn_of_strip_decorator hok h1
                have hex' : ∃ l ∈ rest, pyIn needle l = true := by
                  rcases hex with ⟨l, hlmem, hltrue⟩
                  rcases List.mem_cons.mp hlmem with rfl | hmem
                  · rw [hline] at hltrue; cases hltrue
                  · exact ⟨l, hmem, hltrue⟩
                rcases ih rest hrest hex' with ⟨t, B, heq, hA, hB⟩
                refine ⟨t + 1, B, ?_, ?_, hB⟩
                · rw [replLoop_step_dec_none nc needle line f rest false false h1 hfi,
                    heq, List.take_succ_cons]
                  rfl
                · intro l hl
                  rw [List.take_succ_cons] at hl
                  rcases List.mem_cons.mp hl with rfl | hmem
                  · exact hline
                  · exact hA l hmem
          · by_cases h2 : pyIn needle line = true
            · rw [replLoop_step_needle nc needle line f rest false false h1 h2,
                if_neg (by simp)]
              refine ⟨0, _, rfl, by simp, ?_⟩
              intro l hl
              exact replLoop_true_clean nc needle hok f _ true
                (le_trans (skipBody_length _ _) hrest) l hl
            · have h2' : pyIn needle line = false := by
                cases hb : pyIn needle line
                · rfl
                · exact absurd hb h2
              have hex' : ∃ l ∈ rest, pyIn needle l = true := by
                rcases hex with ⟨l, hlmem, hltrue⟩
                rcases List.mem_cons.mp hlmem with rfl | hmem
                · rw [h2'] at hltrue; cases hltrue
                · exact ⟨l, hmem, hltrue⟩
              rcases ih rest hrest hex' with ⟨t, B, heq, hA, hB⟩
              refine ⟨t + 1, B, ?_, ?_, hB⟩
              · rw [replLoop_step_other nc needle line f rest false false h1 h2'
                  (by simp), ite_self, heq, List.take_succ_cons]
                rfl
              · intro l hl
                rw [List.take_succ_cons] at hl
                rcases List.mem_cons.mp hl with rfl | hmem
                · exact h2'
                · exact hA l hmem

/-- C2: on any file content with at least one line containing
`def {toolName}(`, the forced-update merge emits a needle-free prefix of the
original lines up to the first decorator-or-`def` trigger, then the new
generated code exactly once, then only needle-free lines: every existing
occurrence of the tool (decorator+def block) is removed, the new code is
inserted exactly once at the position of the first occurrence, and the
resulting content contains exactly one definition of the function. -/
theorem replace_tool_unique_insertion (content newCode toolName : String)
    (h : ∃ l ∈ splitOnChar '\n' content, pyIn (defNeedle toolName) l = true) :
    ∃ t B, replaceToolLines content newCode toolName =
        (splitOnChar '\n' content).take t ++ newCode :: B ∧
      (∀ l ∈ (splitOnChar '\n' content).take t, pyIn (defNeedle toolName) l = false) ∧
      (∀ l ∈ B, pyIn (defNeedle toolName) l = false) ∧
      replace_tool_in_content content newCode toolName =
        String.intercalate "\n"
          ((splitOnChar '\n' content).take t ++ newCode :: B) := by
  have hrt : replaceToolLines content newCode toolName =
      replLoop newCode (defNeedle toolName) (splitOnChar '\n' content).length
        (splitOnChar '\n' content) false false := rfl
  rcases replLoop_prefix_spec newCode (defNeedle toolName) (defNeedle_marker toolName)
      (splitOnChar '\n' content).length (splitOnChar '\n' content) (le_refl _) h with
    ⟨t, B, heq, hA, hB⟩
  refine ⟨t, B, by rw [hrt, heq], hA, hB, ?_⟩
  show String.intercalate "\n" (replaceToolLines content newCode toolName) = _
  rw [hrt, heq]

/-- A service file holding two duplicate definitions of `foo_bar`. -/
def c2content : String := "@mcp.tool()\ndef foo_bar():\n    return 1\n\n@mcp.tool()\ndef foo_bar():\n    return 2\nEND = 1\n"

/-- Fresh generated code for `foo_bar`. -/
def c2code : String := "\n@mcp.tool()\ndef foo_bar():\n    return 3\n"

/-- Witness for `replace_tool_unique_insertion` on a file with two
duplicate `foo_bar` definitions. -/
theorem replace_tool_unique_insertion_witness :
    (∃ l ∈ splitOnChar '\n' c2content, pyIn (defNeedle "foo_bar") l = true) ∧
    (∃ t B, replaceToolLines c2content c2code "foo_bar" =
        (splitOnChar '\n' c2content).take t ++ c2code :: B ∧
      (∀ l ∈ (splitOnChar '\n' c2content).take t, pyIn (defNeedle "foo_bar") l = false) ∧
      (∀ l ∈ B, pyIn (defNeedle "foo_bar") l = false) ∧
      replace_tool_in_content c2content c2code "foo_bar" =
        String.intercalate "\n"
          ((splitOnChar '\n' c2content).take t ++ c2code :: B)) :=
  ⟨by decide, replace_tool_unique_insertion c2content c2code "foo_bar" (by decide)⟩

